import Mathlib

/-!
Verification of the string/buffer marshaling layer and the high-level
orchestration of the hassle-rs DXC wrapper (files `src/utils.rs` and
`src/ffi.rs`), as a shallow embedding in Lean.

Modelling conventions:
* A Rust `&str` / `String` is a Lean `String` (a list of Unicode scalar
  values; like Rust, Lean `Char` excludes surrogate code points).
* Wide characters (`WCHAR`) are modelled as UTF-16 code units, i.e. `Nat`
  values; a wide buffer is a `List Nat`.  `widestring::WideCString::from_str`
  rejects interior nul values and encodes to UTF-16;
  `widestring::WideCStr::to_string` performs strict UTF-16 decoding
  (rejecting unpaired surrogates).
* Narrow (`LPSTR`) buffers are byte lists (`List Nat`), decoded by a strict
  UTF-8 decoder mirroring `std::str::from_utf8` (rejecting overlong forms,
  surrogates and out-of-range values).
* A Rust panic (`unwrap` / `expect` on a failed result) is modelled as
  `Option.none`: the function does not return a value on that input.
* The calls into the foreign DXC component made by `compile_hlsl` and
  `validate_dxil` are opaque at this layer; their outcomes are threaded in
  explicitly as a world record, and the orchestration logic of `utils.rs`
  is embedded over those outcomes.
-/

namespace Hassle

/-- UTF-16 encoding of one Unicode scalar value, as produced per character by
`widestring::WideCString::from_str` (Rust `str::encode_utf16`). -/
def utf16EncodeChar (c : Char) : List Nat :=
  let n := c.toNat
  if n < 0x10000 then [n]
  else
    let m := n - 0x10000
    [0xD800 + m / 0x400, 0xDC00 + m % 0x400]

/-- UTF-16 encoding of a character sequence. -/
def utf16EncodeList : List Char → List Nat
  | [] => []
  | c :: l => utf16EncodeChar c ++ utf16EncodeList l

/-- Strict UTF-16 decoding of a code-unit sequence, as performed by
`widestring::WideCStr::to_string` (Rust `String::from_utf16`): a high
surrogate must be followed by a low surrogate, a lone or inverted surrogate
is a decode error.  Units at or above 0x10000 cannot occur in a `u16`
buffer and are likewise rejected. -/
def utf16DecodeAux : List Nat → Option (List Char)
  | [] => some []
  | u :: rest =>
    if u < 0xD800 ∨ (0xE000 ≤ u ∧ u < 0x10000) then
      (utf16DecodeAux rest).map (fun l => Char.ofNat u :: l)
    else if 0xD800 ≤ u ∧ u < 0xDC00 then
      match rest with
      | [] => none
      | v :: rest2 =>
        if 0xDC00 ≤ v ∧ v < 0xE000 then
          (utf16DecodeAux rest2).map
            (fun l => Char.ofNat (0x10000 + (u - 0xD800) * 0x400 + (v - 0xDC00)) :: l)
        else none
    else none

/-- UTF-8 encoding of one Unicode scalar value (Rust `String` byte
representation of one `char`). -/
def utf8EncodeChar (c : Char) : List Nat :=
  let n := c.toNat
  if n < 0x80 then [n]
  else if n < 0x800 then [0xC0 + n / 0x40, 0x80 + n % 0x40]
  else if n < 0x10000 then
    [0xE0 + n / 0x1000, 0x80 + (n / 0x40) % 0x40, 0x80 + n % 0x40]
  else
    [0xF0 + n / 0x40000, 0x80 + (n / 0x1000) % 0x40, 0x80 + (n / 0x40) % 0x40,
      0x80 + n % 0x40]

/-- UTF-8 encoding of a character sequence. -/
def utf8EncodeList : List Char → List Nat
  | [] => []
  | c :: l => utf8EncodeChar c ++ utf8EncodeList l

/-- Strict UTF-8 validation and decoding, mirroring `std::str::from_utf8`:
overlong encodings, encoded surrogates, values above 0x10FFFF, truncated
sequences and stray continuation bytes are all rejected.  A continuation
byte must lie in 0x80..0xBF; the second-byte range restrictions for lead
bytes 0xE0, 0xED, 0xF0 and 0xF4 express exactly the overlong, surrogate and
range constraints. -/
def utf8DecodeAux : List Nat → Option (List Char)
  | [] => some []
  | b :: l =>
    if b < 0x80 then (utf8DecodeAux l).map (fun cs => Char.ofNat b :: cs)
    else if b < 0xC2 then none
    else if b < 0xE0 then
      match l with
      | [] => none
      | b2 :: l2 =>
        if 0x80 ≤ b2 ∧ b2 < 0xC0 then
          (utf8DecodeAux l2).map (fun cs => Char.ofNat ((b - 0xC0) * 0x40 + (b2 - 0x80)) :: cs)
        else none
    else if b < 0xF0 then
      match l with
      | [] => none
      | b2 :: l2 =>
        match l2 with
        | [] => none
        | b3 :: l3 =>
          if (0x80 ≤ b2 ∧ b2 < 0xC0) ∧ (0x80 ≤ b3 ∧ b3 < 0xC0) ∧
              (b = 0xE0 → 0xA0 ≤ b2) ∧ (b = 0xED → b2 < 0xA0) then
            (utf8DecodeAux l3).map
              (fun cs => Char.ofNat ((b - 0xE0) * 0x1000 + (b2 - 0x80) * 0x40 + (b3 - 0x80)) :: cs)
          else none
    else if b < 0xF5 then
      match l with
      | [] => none
      | b2 :: l2 =>
        match l2 with
        | [] => none
        | b3 :: l3 =>
          match l3 with
          | [] => none
          | b4 :: l4 =>
            if (0x80 ≤ b2 ∧ b2 < 0xC0) ∧ (0x80 ≤ b3 ∧ b3 < 0xC0) ∧ (0x80 ≤ b4 ∧ b4 < 0xC0) ∧
                (b = 0xF0 → 0x90 ≤ b2) ∧ (b = 0xF4 → b2 < 0x90) then
              (utf8DecodeAux l4).map
                (fun cs =>
                  Char.ofNat
                    ((b - 0xF0) * 0x40000 + (b2 - 0x80) * 0x1000 + (b3 - 0x80) * 0x40 +
                      (b4 - 0x80))
                    :: cs)
            else none
    else none

/-- The nul character, U+0000. -/
def nulChar : Char := Char.ofNat 0

/-- Embedding of `to_wide` (src/utils.rs lines 8-10):
`widestring::WideCString::from_str(msg).unwrap().into_vec()`.
`from_str` scans for nul values and fails on any (the `unwrap` then panics,
modelled as `none`); `into_vec` yields the UTF-16 code units without a nul
terminator. -/
def to_wide (msg : String) : Option (List Nat) :=
  if nulChar ∈ msg.data then none
  else some (utf16EncodeList msg.data)

/-- Embedding of `from_wide` (src/utils.rs lines 12-18):
`widestring::WideCStr::from_ptr_str(wide)` scans the buffer up to the first
nul unit, and `to_string` strictly decodes those units (the `expect` panics
on a decode error, modelled as `none`). -/
def from_wide (wide : List Nat) : Option String :=
  (utf16DecodeAux (wide.takeWhile (fun u => u ≠ 0))).map String.mk

/-- Embedding of `from_lpstr` (src/utils.rs lines 48-55): count the bytes
before the first zero byte, take that slice, and validate it as UTF-8
(`std::str::from_utf8` followed by `unwrap`, which panics on invalid input,
modelled as `none`). -/
def from_lpstr (string : List Nat) : Option String :=
  (utf8DecodeAux (string.takeWhile (fun b => b ≠ 0))).map String.mk

/-- Deallocation actions observable at the foreign boundary. -/
inductive Effect where
  | sysFreeString : Effect
  | hostFree : Effect
deriving DecidableEq

/-- Embedding of the Windows variant of `from_bstr` (src/utils.rs lines
20-32): `SysStringLen` gives the length-prefixed unit count `len`, the
first `len` units are strictly decoded (embedded nuls included), and the
buffer is then released with `SysFreeString`.  The returned trace records
the deallocations performed; on a decode error the `expect` panics before
`SysFreeString` runs, so the trace is empty. -/
def from_bstr_windows (len : Nat) (string : List Nat) : Option String × List Effect :=
  match (utf16DecodeAux (string.take len)).map String.mk with
  | some s => (some s, [Effect.sysFreeString])
  | none => (none, [])

/-- Embedding of the non-Windows variant of `from_bstr` (src/utils.rs lines
34-46): DXC does not honour the BSTR length prefix there, so the buffer is
decoded with `from_wide` (null-terminated, truncating at an embedded nul)
and then released with `SysFreeString`. -/
def from_bstr_fallback (string : List Nat) : Option String × List Effect :=
  match from_wide string with
  | some s => (some s, [Effect.sysFreeString])
  | none => (none, [])

/-- Embedding of `DxcIncludeHandler::load_source` for `DefaultIncludeHandler`
(src/utils.rs lines 57-71).  The filesystem is passed in explicitly as a map
from paths to the byte content of openable files: `fs p = some bytes` models
`File::open(p)` succeeding on a file holding `bytes`, and `fs p = none`
models `File::open` returning `Err`.  After a successful open the source
calls `read_to_string`, which validates the bytes as UTF-8 and whose
`unwrap` (src/utils.rs line 65) panics on invalid content; the panic is the
outer `none`.  The inner option is the value the handler returns to the
caller: `some content` for a readable file, `none` for an unopenable one. -/
def load_source (fs : String → Option (List Nat)) (filename : String) :
    Option (Option String) :=
  match fs filename with
  | some bytes =>
    match utf8DecodeAux bytes with
    | some cs => some (some (String.mk cs))
    | none => none
  | none => some none

/-- Validator flag constant from src/ffi.rs line 187. -/
def DXC_VALIDATOR_FLAGS_DEFAULT : Nat := 0

/-- Validator flag constant from src/ffi.rs line 188. -/
def DXC_VALIDATOR_FLAGS_IN_PLACE_EDIT : Nat := 1

/-- Validator flag constant from src/ffi.rs line 189. -/
def DXC_VALIDATOR_FLAGS_ROOT_SIGNATURE_ONLY : Nat := 2

/-- Validator flag constant from src/ffi.rs line 190. -/
def DXC_VALIDATOR_FLAGS_MODULE_ONLY : Nat := 4

/-- Validator flag mask from src/ffi.rs line 191. -/
def DXC_VALIDATOR_FLAGS_VALID_MASK : Nat := 0x7

/-- HRESULT status codes are 32-bit values; their numeric interpretation is
irrelevant here, so they are carried as integers. -/
abbrev HRESULT : Type := Int

/-- Embedding of the `HassleError` enum (src/utils.rs lines 73-91).  The
loader error detail (`libloading::Error`) is carried as its rendered text. -/
inductive HassleError where
  | win32Error (hr : HRESULT) : HassleError
  | compileError (msg : String) : HassleError
  | validationError (msg : String) : HassleError
  | loadLibraryError (filename : String) (inner : String) : HassleError
  | libLoadingError (inner : String) : HassleError
  | utf8Error (inner : String) : HassleError
deriving DecidableEq

/-- Outcome view of a foreign `IDxcOperationResult` as used by the
orchestration: what `get_error_buffer` and `get_result` return when called
on it.  A blob is its byte content. -/
structure OperationResult where
  getErrorBuffer : Except HRESULT (List Nat)
  getResult : Except HRESULT (List Nat)

/-- Modelled from the spec: `DxcLibrary::get_blob_as_string` is not under
src/ (it lives in the wrapper layer); per the spec the orchestration
"extracts and decodes the error blob" into diagnostic text, and all
blob/string decoding failures are fatal to the call in progress, which then
returns a decoding-failure error.  Decoding is modelled as strict UTF-8;
`none` is the decoding-failure case, which the orchestration below turns
into the text-decoding variant of the error taxonomy. -/
def get_blob_as_string (blob : List Nat) : Option String :=
  (utf8DecodeAux blob).map String.mk

/-- Outcomes of the foreign calls made by `compile_hlsl`, threaded in as an
explicit world.  `Dxc::new`, `create_compiler`, `create_library` and
`Compiler::compile` are not under src/; per the spec the loader yields a
typed error on failure and `compile` yields either an operation result or
a failed operation result. -/
structure CompileWorld where
  dxcNew : Except HassleError Unit
  createCompiler : Except HassleError Unit
  createLibrary : Except HassleError Unit
  createBlobWithEncodingFromStr : Except HRESULT Unit
  compile : Except OperationResult OperationResult

/-- Embedding of `compile_hlsl` (src/utils.rs lines 98-141) over a world of
foreign-call outcomes.  Each `?` in the source is a match on the outcome;
`map_err(HassleError::Win32Error)` wraps a raw status. -/
def compile_hlsl (w : CompileWorld) : Except HassleError (List Nat) :=
  match w.dxcNew with
  | .error e => .error e
  | .ok _ =>
    match w.createCompiler with
    | .error e => .error e
    | .ok _ =>
      match w.createLibrary with
      | .error e => .error e
      | .ok _ =>
        match w.createBlobWithEncodingFromStr with
        | .error hr => .error (.win32Error hr)
        | .ok _ =>
          match w.compile with
          | .error result =>
            match result.getErrorBuffer with
            | .error hr => .error (.win32Error hr)
            | .ok error_blob =>
              match get_blob_as_string error_blob with
              | some text => .error (.compileError text)
              | none => .error (.utf8Error "invalid utf-8 sequence")
          | .ok result =>
            match result.getResult with
            | .error hr => .error (.win32Error hr)
            | .ok result_blob => .ok result_blob

/-- Outcomes of the foreign calls made by `validate_dxil`, threaded in as an
explicit world.  `Dxc::new`, `Dxil::new`, `create_validator`,
`create_library` and `Validator::validate` are not under src/; per the spec
the validator façade yields the operation result's result blob on success
and the failed operation result otherwise. -/
structure ValidateWorld where
  dxcNew : Except HassleError Unit
  dxilNew : Except HassleError Unit
  createValidator : Except HassleError Unit
  createLibrary : Except HassleError Unit
  createBlobWithEncoding : Except HRESULT Unit
  validate : Except OperationResult (List Nat)

/-- Embedding of `validate_dxil` (src/utils.rs lines 147-170) over a world
of foreign-call outcomes. -/
def validate_dxil (w : ValidateWorld) : Except HassleError (List Nat) :=
  match w.dxcNew with
  | .error e => .error e
  | .ok _ =>
    match w.dxilNew with
    | .error e => .error e
    | .ok _ =>
      match w.createValidator with
      | .error e => .error e
      | .ok _ =>
        match w.createLibrary with
        | .error e => .error e
        | .ok _ =>
          match w.createBlobWithEncoding with
          | .error hr => .error (.win32Error hr)
          | .ok _ =>
            match w.validate with
            | .ok blob => .ok blob
            | .error result =>
              match result.getErrorBuffer with
              | .error hr => .error (.win32Error hr)
              | .ok error_blob =>
                match get_blob_as_string error_blob with
                | some text => .error (.validationError text)
                | none => .error (.utf8Error "invalid utf-8 sequence")

/-- A character's scalar value is in the valid range and is not a surrogate. -/
theorem charValid (c : Char) : c.toNat < 0xD800 ∨ (0xDFFF < c.toNat ∧ c.toNat < 0x110000) :=
  c.valid

/-- A character other than nul has a nonzero scalar value. -/
theorem toNat_ne_zero_of_ne_nul (c : Char) (h : c ≠ nulChar) : c.toNat ≠ 0 := by
  intro h0
  apply h
  have := Char.ofNat_toNat c
  rw [h0] at this
  exact this.symm

/-- Decoding a UTF-16 encoded character prepended to any unit sequence peels
off exactly that character. -/
theorem utf16_decode_encode (c : Char) (rest : List Nat) :
    utf16DecodeAux (utf16EncodeChar c ++ rest) =
      (utf16DecodeAux rest).map (fun l => c :: l) := by
  have hv := charValid c
  unfold utf16EncodeChar
  by_cases h : c.toNat < 0x10000
  · rw [if_pos h]
    simp only [List.cons_append, List.nil_append]
    cases rest with
    | nil =>
      simp only [utf16DecodeAux]
      rw [if_pos (by omega), Char.ofNat_toNat]
    | cons v rest2 =>
      simp only [utf16DecodeAux]
      rw [if_pos (by omega), Char.ofNat_toNat]
  · rw [if_neg h]
    simp only [List.cons_append, List.nil_append]
    simp only [utf16DecodeAux]
    rw [if_neg (by omega), if_pos (by omega), if_pos (by omega)]
    have harg :
        0x10000 + (0xD800 + (c.toNat - 0x10000) / 0x400 - 0xD800) * 0x400 +
            (0xDC00 + (c.toNat - 0x10000) % 0x400 - 0xDC00) = c.toNat := by
      omega
    rw [harg, Char.ofNat_toNat]

/-- Decoding the UTF-16 encoding of any character sequence recovers it. -/
theorem utf16_decode_encodeList (l : List Char) :
    utf16DecodeAux (utf16EncodeList l) = some l := by
  induction l with
  | nil => rfl
  | cons c l ih =>
    show utf16DecodeAux (utf16EncodeChar c ++ utf16EncodeList l) = _
    rw [utf16_decode_encode, ih]
    rfl

/-- No UTF-16 code unit of a non-nul character is zero. -/
theorem utf16EncodeChar_ne_zero (c : Char) (h : c ≠ nulChar) :
    ∀ u ∈ utf16EncodeChar c, u ≠ 0 := by
  have hn := toNat_ne_zero_of_ne_nul c h
  intro u hu
  unfold utf16EncodeChar at hu
  by_cases h16 : c.toNat < 0x10000
  · rw [if_pos h16] at hu
    simp only [List.mem_singleton] at hu
    omega
  · rw [if_neg h16] at hu
    simp only [List.mem_cons, List.mem_singleton, List.not_mem_nil, or_false] at hu
    rcases hu with hu | hu <;> omega

/-- No UTF-16 code unit of a nul-free character sequence is zero. -/
theorem utf16EncodeList_ne_zero (l : List Char) (h : nulChar ∉ l) :
    ∀ u ∈ utf16EncodeList l, u ≠ 0 := by
  induction l with
  | nil => intro u hu; simp [utf16EncodeList] at hu
  | cons c l ih =>
    intro u hu
    simp only [utf16EncodeList, List.mem_append] at hu
    have hc : c ≠ nulChar := by
      intro hc
      apply h
      rw [← hc]
      exact List.mem_cons_self c l
    have hl : nulChar ∉ l := fun hm => h (List.mem_cons_of_mem c hm)
    rcases hu with hu | hu
    · exact utf16EncodeChar_ne_zero c hc u hu
    · exact ih hl u hu

/-- Scanning for the first zero over a zero-free list returns it whole. -/
theorem takeWhile_ne_zero_all (l : List Nat) (h : ∀ u ∈ l, u ≠ 0) :
    l.takeWhile (fun u => u ≠ 0) = l := by
  induction l with
  | nil => rfl
  | cons u l ih =>
    have hu : u ≠ 0 := h u (List.mem_cons_self u l)
    simp only [List.takeWhile_cons]
    rw [if_pos (by simpa using hu)]
    rw [ih (fun v hv => h v (List.mem_cons_of_mem u hv))]

/-- Scanning for the first zero over a zero-free list followed by a zero and
arbitrary data returns exactly the zero-free part. -/
theorem takeWhile_ne_zero_append (l rest : List Nat) (h : ∀ u ∈ l, u ≠ 0) :
    (l ++ 0 :: rest).takeWhile (fun u => u ≠ 0) = l := by
  induction l with
  | nil => simp [List.takeWhile_cons]
  | cons u l ih =>
    have hu : u ≠ 0 := h u (List.mem_cons_self u l)
    simp only [List.cons_append, List.takeWhile_cons]
    rw [if_pos (by simpa using hu)]
    rw [ih (fun v hv => h v (List.mem_cons_of_mem u hv))]

/-- One-byte step of the UTF-8 decoder. -/
theorem utf8Decode_one (b : Nat) (l : List Nat) (h : b < 0x80) :
    utf8DecodeAux (b :: l) = (utf8DecodeAux l).map (fun cs => Char.ofNat b :: cs) := by
  rcases l with _ | ⟨b2, _ | ⟨b3, _ | ⟨b4, l4⟩⟩⟩
  all_goals
    simp only [utf8DecodeAux]
    rw [if_pos h]

/-- Two-byte step of the UTF-8 decoder. -/
theorem utf8Decode_two (b b2 : Nat) (l : List Nat) (hb : 0xC2 ≤ b ∧ b < 0xE0)
    (h2 : 0x80 ≤ b2 ∧ b2 < 0xC0) :
    utf8DecodeAux (b :: b2 :: l) =
      (utf8DecodeAux l).map (fun cs => Char.ofNat ((b - 0xC0) * 0x40 + (b2 - 0x80)) :: cs) := by
  rcases l with _ | ⟨b3, _ | ⟨b4, l4⟩⟩
  all_goals
    simp only [utf8DecodeAux]
    rw [if_neg (by omega), if_neg (by omega), if_pos (by omega), if_pos h2]

/-- Three-byte step of the UTF-8 decoder. -/
theorem utf8Decode_three (b b2 b3 : Nat) (l : List Nat) (hb : 0xE0 ≤ b ∧ b < 0xF0)
    (hg : (0x80 ≤ b2 ∧ b2 < 0xC0) ∧ (0x80 ≤ b3 ∧ b3 < 0xC0) ∧
      (b = 0xE0 → 0xA0 ≤ b2) ∧ (b = 0xED → b2 < 0xA0)) :
    utf8DecodeAux (b :: b2 :: b3 :: l) =
      (utf8DecodeAux l).map
        (fun cs => Char.ofNat ((b - 0xE0) * 0x1000 + (b2 - 0x80) * 0x40 + (b3 - 0x80)) :: cs) := by
  rcases l with _ | ⟨b4, l4⟩
  all_goals
    simp only [utf8DecodeAux]
    rw [if_neg (by omega), if_neg (by omega), if_neg (by omega), if_pos (by omega), if_pos hg]

/-- Four-byte step of the UTF-8 decoder. -/
theorem utf8Decode_four (b b2 b3 b4 : Nat) (l : List Nat) (hb : 0xF0 ≤ b ∧ b < 0xF5)
    (hg : (0x80 ≤ b2 ∧ b2 < 0xC0) ∧ (0x80 ≤ b3 ∧ b3 < 0xC0) ∧ (0x80 ≤ b4 ∧ b4 < 0xC0) ∧
      (b = 0xF0 → 0x90 ≤ b2) ∧ (b = 0xF4 → b2 < 0x90)) :
    utf8DecodeAux (b :: b2 :: b3 :: b4 :: l) =
      (utf8DecodeAux l).map
        (fun cs =>
          Char.ofNat
            ((b - 0xF0) * 0x40000 + (b2 - 0x80) * 0x1000 + (b3 - 0x80) * 0x40 + (b4 - 0x80))
            :: cs) := by
  simp only [utf8DecodeAux]
  rw [if_neg (by omega), if_neg (by omega), if_neg (by omega), if_neg (by omega),
    if_pos (by omega), if_pos hg]

/-- Decoding a UTF-8 encoded character prepended to any byte sequence peels
off exactly that character. -/
theorem utf8_decode_encode (c : Char) (rest : List Nat) :
    utf8DecodeAux (utf8EncodeChar c ++ rest) =
      (utf8DecodeAux rest).map (fun cs => c :: cs) := by
  have hv := charValid c
  unfold utf8EncodeChar
  by_cases h1 : c.toNat < 0x80
  · rw [if_pos h1]
    simp only [List.cons_append, List.nil_append]
    rw [utf8Decode_one _ _ h1, Char.ofNat_toNat]
  · rw [if_neg h1]
    by_cases h2 : c.toNat < 0x800
    · rw [if_pos h2]
      simp only [List.cons_append, List.nil_append]
      rw [utf8Decode_two _ _ _ (by omega) (by omega)]
      rw [show (0xC0 + c.toNat / 0x40 - 0xC0) * 0x40 + (0x80 + c.toNat % 0x40 - 0x80) =
          c.toNat from by omega, Char.ofNat_toNat]
    · rw [if_neg h2]
      by_cases h3 : c.toNat < 0x10000
      · rw [if_pos h3]
        simp only [List.cons_append, List.nil_append]
        rw [utf8Decode_three _ _ _ _ (by omega) (by omega)]
        rw [show (0xE0 + c.toNat / 0x1000 - 0xE0) * 0x1000 +
            (0x80 + c.toNat / 0x40 % 0x40 - 0x80) * 0x40 + (0x80 + c.toNat % 0x40 - 0x80) =
            c.toNat from by omega, Char.ofNat_toNat]
      · rw [if_neg h3]
        simp only [List.cons_append, List.nil_append]
        rw [utf8Decode_four _ _ _ _ _ (by omega) (by omega)]
        rw [show (0xF0 + c.toNat / 0x40000 - 0xF0) * 0x40000 +
            (0x80 + c.toNat / 0x1000 % 0x40 - 0x80) * 0x1000 +
            (0x80 + c.toNat / 0x40 % 0x40 - 0x80) * 0x40 + (0x80 + c.toNat % 0x40 - 0x80) =
            c.toNat from by omega, Char.ofNat_toNat]

/-- Decoding the UTF-8 encoding of any character sequence recovers it. -/
theorem utf8_decode_encodeList (l : List Char) :
    utf8DecodeAux (utf8EncodeList l) = some l := by
  induction l with
  | nil => rfl
  | cons c l ih =>
    show utf8DecodeAux (utf8EncodeChar c ++ utf8EncodeList l) = _
    rw [utf8_decode_encode, ih]
    rfl

/-- No UTF-8 byte of a non-nul character is zero. -/
theorem utf8EncodeChar_ne_zero (c : Char) (h : c ≠ nulChar) :
    ∀ b ∈ utf8EncodeChar c, b ≠ 0 := by
  have hn := toNat_ne_zero_of_ne_nul c h
  intro b hb
  unfold utf8EncodeChar at hb
  by_cases h1 : c.toNat < 0x80
  · rw [if_pos h1] at hb
    simp only [List.mem_singleton] at hb
    omega
  · rw [if_neg h1] at hb
    by_cases h2 : c.toNat < 0x800
    · rw [if_pos h2] at hb
      simp only [List.mem_cons, List.not_mem_nil, or_false] at hb
      rcases hb with hb | hb <;> omega
    · rw [if_neg h2] at hb
      by_cases h3 : c.toNat < 0x10000
      · rw [if_pos h3] at hb
        simp only [List.mem_cons, List.not_mem_nil, or_false] at hb
        rcases hb with hb | hb | hb <;> omega
      · rw [if_neg h3] at hb
        simp only [List.mem_cons, List.not_mem_nil, or_false] at hb
        rcases hb with hb | hb | hb | hb <;> omega

/-- No UTF-8 byte of a nul-free character sequence is zero. -/
theorem utf8EncodeList_ne_zero (l : List Char) (h : nulChar ∉ l) :
    ∀ b ∈ utf8EncodeList l, b ≠ 0 := by
  induction l with
  | nil => intro b hb; simp [utf8EncodeList] at hb
  | cons c l ih =>
    intro b hb
    simp only [utf8EncodeList, List.mem_append] at hb
    have hc : c ≠ nulChar := by
      intro hc
      apply h
      rw [← hc]
      exact List.mem_cons_self c l
    have hl : nulChar ∉ l := fun hm => h (List.mem_cons_of_mem c hm)
    rcases hb with hb | hb
    · exact utf8EncodeChar_ne_zero c hc b hb
    · exact ih hl b hb

/-- Claim C2, counterexample: the round trip fails as stated on the valid
UTF-8 string consisting of one nul character, because `to_wide` takes its
failure branch there (the `unwrap` of `WideCString::from_str` panics). -/
theorem c2_wide_roundtrip_counterexample :
    ¬ (to_wide (String.mk [nulChar])).bind from_wide = some (String.mk [nulChar]) := by
  decide

/-- Claim C2 (amended): for every UTF-8 string s containing no nul
character, decoding the wide encoding of s yields s again:
from_wide (to_wide s) = s. -/
theorem c2_wide_roundtrip (s : String) (h : nulChar ∉ s.data) :
    (to_wide s).bind from_wide = some s := by
  unfold to_wide
  rw [if_neg h]
  show from_wide (utf16EncodeList s.data) = some s
  unfold from_wide
  rw [takeWhile_ne_zero_all _ (utf16EncodeList_ne_zero s.data h)]
  rw [utf16_decode_encodeList]
  cases s
  rfl

/-- Claim C2, witness at a concrete nul-free string. -/
theorem c2_wide_roundtrip_witness : (to_wide "ab").bind from_wide = some "ab" :=
  c2_wide_roundtrip "ab" (by decide)

/-- Claim C4, counterexample: the string consisting of one nul character is
valid UTF-8, yet the failure branch inside `to_wide` is taken on it
(`WideCString::from_str` returns a nul error and the `unwrap` panics). -/
theorem c4_to_wide_counterexample : to_wide (String.mk [nulChar]) = none := by
  decide

/-- Claim C4 (amended): `to_wide` succeeds on every input string containing
no nul character; the failure branch is taken exactly on inputs with an
interior nul. -/
theorem c4_to_wide_total (s : String) (h : nulChar ∉ s.data) : (to_wide s).isSome := by
  unfold to_wide
  rw [if_neg h]
  rfl

/-- Claim C4, witness at a concrete nul-free string. -/
theorem c4_to_wide_total_witness : (to_wide "ab").isSome :=
  c4_to_wide_total "ab" (by decide)

/-- Claim C3: on the non-Windows fallback path, `from_bstr` returns exactly
the decoded content up to, but not including, the first nul unit; everything
after an embedded nul is dropped. -/
theorem c3_fallback_truncates_at_first_nul (s t : String) (h : nulChar ∉ s.data) :
    (from_bstr_fallback (utf16EncodeList s.data ++ 0 :: utf16EncodeList t.data)).1 =
      some s := by
  have hres : from_wide (utf16EncodeList s.data ++ 0 :: utf16EncodeList t.data) = some s := by
    unfold from_wide
    rw [takeWhile_ne_zero_append _ _ (utf16EncodeList_ne_zero s.data h)]
    rw [utf16_decode_encodeList]
    cases s
    rfl
  unfold from_bstr_fallback
  rw [hres]

/-- Claim C3, witness at a concrete buffer with an embedded nul. -/
theorem c3_fallback_truncates_at_first_nul_witness :
    (from_bstr_fallback (utf16EncodeList "ab".data ++ 0 :: utf16EncodeList "cd".data)).1 =
      some "ab" :=
  c3_fallback_truncates_at_first_nul "ab" "cd" (by decide)

/-- Claim C5: `from_lpstr` reads exactly the bytes before the first nul
terminator and validates them as UTF-8, returning the decoded text when
valid; when that byte sequence is not valid UTF-8 it fails (the `unwrap`
panics, modelled as `none`). -/
theorem c5_from_lpstr_utf8 :
    (∀ (s : String) (rest : List Nat), nulChar ∉ s.data →
      from_lpstr (utf8EncodeList s.data ++ 0 :: rest) = some s) ∧
    (∀ (pre rest : List Nat), (∀ b ∈ pre, b ≠ 0) → utf8DecodeAux pre = none →
      from_lpstr (pre ++ 0 :: rest) = none) := by
  constructor
  · intro s rest h
    unfold from_lpstr
    rw [takeWhile_ne_zero_append _ _ (utf8EncodeList_ne_zero s.data h)]
    rw [utf8_decode_encodeList]
    cases s
    rfl
  · intro pre rest hnz hdec
    unfold from_lpstr
    rw [takeWhile_ne_zero_append _ _ hnz, hdec]
    rfl

/-- Claim C5, witness: a valid narrow buffer decodes to the text before the
terminator, and an invalid byte sequence before the terminator fails. -/
theorem c5_from_lpstr_utf8_witness :
    from_lpstr (utf8EncodeList "ab".data ++ 0 :: [0xFF]) = some "ab" ∧
    from_lpstr ([0xFF] ++ 0 :: []) = none :=
  ⟨c5_from_lpstr_utf8.1 "ab" [0xFF] (by decide),
    c5_from_lpstr_utf8.2 [0xFF] [] (by decide) (by decide)⟩

/-- Claim C7, counterexample: a file that can be opened but whose byte
content is not valid UTF-8 makes the handler panic in
`read_to_string(..).unwrap()` (src/utils.rs line 65), so on that input it
returns neither the file content nor `None`: the claim that an openable
file always yields its content, never an error, fails there. -/
theorem c7_default_include_handler_counterexample :
    (fun n => if n = "bin.dat" then some [0xFF] else none) "bin.dat" = some [0xFF] ∧
    load_source (fun n => if n = "bin.dat" then some [0xFF] else none) "bin.dat" = none := by
  constructor
  · decide
  · decide

/-- Claim C7 (amended): the default include handler resolves every
requested name as a filesystem path: when the file can be opened and its
bytes are valid UTF-8 text, it returns that text; when the file cannot be
opened it returns absent (`None`), never an error value; when the file can
be opened but its bytes are not valid UTF-8, the handler panics in the
`read_to_string` `unwrap`. -/
theorem c7_default_include_handler (fs : String → Option (List Nat)) (filename : String) :
    (∀ content : String, fs filename = some (utf8EncodeList content.data) →
      load_source fs filename = some (some content)) ∧
    (fs filename = none → load_source fs filename = some none) ∧
    (∀ bytes, fs filename = some bytes → utf8DecodeAux bytes = none →
      load_source fs filename = none) := by
  refine ⟨?_, ?_, ?_⟩
  · intro content h
    unfold load_source
    simp only [h, utf8_decode_encodeList]
  · intro h
    unfold load_source
    simp only [h]
  · intro bytes h hd
    unfold load_source
    simp only [h, hd]

/-- Claim C7, witness over a concrete filesystem holding one text file and
one non-UTF-8 file. -/
theorem c7_default_include_handler_witness :
    load_source
        (fun n => if n = "inc.hlsl" then some (utf8EncodeList "static int x;".data) else none)
        "inc.hlsl" = some (some "static int x;") ∧
    load_source
        (fun n => if n = "inc.hlsl" then some (utf8EncodeList "static int x;".data) else none)
        "other.hlsl" = some none ∧
    load_source (fun n => if n = "raw.bin" then some [0xC0] else none) "raw.bin" = none :=
  ⟨(c7_default_include_handler _ "inc.hlsl").1 "static int x;" (by decide),
    (c7_default_include_handler _ "other.hlsl").2.1 (by decide),
    (c7_default_include_handler _ "raw.bin").2.2 [0xC0] (by decide) (by decide)⟩

/-- Claim C8: the validator flag bits are default = 0, in-place-edit = 1,
root-signature-only = 2, module-only = 4, and the valid mask is 7, the
bitwise OR of all the flags. -/
theorem c8_validator_flags :
    DXC_VALIDATOR_FLAGS_DEFAULT = 0 ∧
    DXC_VALIDATOR_FLAGS_IN_PLACE_EDIT = 1 ∧
    DXC_VALIDATOR_FLAGS_ROOT_SIGNATURE_ONLY = 2 ∧
    DXC_VALIDATOR_FLAGS_MODULE_ONLY = 4 ∧
    DXC_VALIDATOR_FLAGS_VALID_MASK = 7 ∧
    DXC_VALIDATOR_FLAGS_VALID_MASK =
      (DXC_VALIDATOR_FLAGS_DEFAULT ||| DXC_VALIDATOR_FLAGS_IN_PLACE_EDIT |||
        DXC_VALIDATOR_FLAGS_ROOT_SIGNATURE_ONLY ||| DXC_VALIDATOR_FLAGS_MODULE_ONLY) := by
  decide

/-- Claim C9: on both platform variants, whenever `from_bstr` returns, it
has released the foreign buffer through `SysFreeString` exactly once, and
it never frees through the host allocator on any path. -/
theorem c9_from_bstr_sys_free (len : Nat) (buf : List Nat) :
    Effect.hostFree ∉ (from_bstr_windows len buf).2 ∧
    Effect.hostFree ∉ (from_bstr_fallback buf).2 ∧
    ((from_bstr_windows len buf).1.isSome →
      (from_bstr_windows len buf).2 = [Effect.sysFreeString]) ∧
    ((from_bstr_fallback buf).1.isSome →
      (from_bstr_fallback buf).2 = [Effect.sysFreeString]) := by
  unfold from_bstr_windows from_bstr_fallback
  cases (utf16DecodeAux (buf.take len)).map String.mk <;> cases from_wide buf <;> simp

/-- Claim C9, witness at a concrete foreign buffer. -/
theorem c9_from_bstr_sys_free_witness :
    (from_bstr_windows 1 [65, 0]).2 = [Effect.sysFreeString] ∧
    (from_bstr_fallback [65, 0]).2 = [Effect.sysFreeString] ∧
    Effect.hostFree ∉ (from_bstr_windows 1 [65, 0]).2 :=
  ⟨(c9_from_bstr_sys_free 1 [65, 0]).2.2.1 (by decide),
    (c9_from_bstr_sys_free 1 [65, 0]).2.2.2 (by decide),
    (c9_from_bstr_sys_free 1 [65, 0]).1⟩

/-- Compile world whose foreign compile call fails with diagnostics. -/
def worldCompileErr : CompileWorld where
  dxcNew := .ok ()
  createCompiler := .ok ()
  createLibrary := .ok ()
  createBlobWithEncodingFromStr := .ok ()
  compile := .error { getErrorBuffer := .ok [98, 97, 100], getResult := .error 1 }

/-- Compile world whose foreign compile call succeeds. -/
def worldCompileOk : CompileWorld where
  dxcNew := .ok ()
  createCompiler := .ok ()
  createLibrary := .ok ()
  createBlobWithEncodingFromStr := .ok ()
  compile := .ok { getErrorBuffer := .error 1, getResult := .ok [68, 88, 66, 67] }

/-- Compile world whose compile call fails and whose error-buffer
extraction itself fails with a raw status. -/
def worldCompileErrNoBlob : CompileWorld where
  dxcNew := .ok ()
  createCompiler := .ok ()
  createLibrary := .ok ()
  createBlobWithEncodingFromStr := .ok ()
  compile := .error { getErrorBuffer := .error (-2147024882), getResult := .error 1 }

/-- Compile world where loading the compiler library fails. -/
def worldCompileLoadFail : CompileWorld where
  dxcNew := .error (.loadLibraryError "dxcompiler.dll" "not found")
  createCompiler := .ok ()
  createLibrary := .ok ()
  createBlobWithEncodingFromStr := .ok ()
  compile := .ok { getErrorBuffer := .error 1, getResult := .ok [] }

/-- Validate world whose foreign validate call fails with diagnostics. -/
def worldValidateErr : ValidateWorld where
  dxcNew := .ok ()
  dxilNew := .ok ()
  createValidator := .ok ()
  createLibrary := .ok ()
  createBlobWithEncoding := .ok ()
  validate := .error { getErrorBuffer := .ok [98, 97, 100], getResult := .error 1 }

/-- Validate world whose foreign validate call succeeds. -/
def worldValidateOk : ValidateWorld where
  dxcNew := .ok ()
  dxilNew := .ok ()
  createValidator := .ok ()
  createLibrary := .ok ()
  createBlobWithEncoding := .ok ()
  validate := .ok [68, 88, 66, 67]

/-- Validate world whose validate call fails and whose error-buffer
extraction itself fails with a raw status. -/
def worldValidateErrNoBlob : ValidateWorld where
  dxcNew := .ok ()
  dxilNew := .ok ()
  createValidator := .ok ()
  createLibrary := .ok ()
  createBlobWithEncoding := .ok ()
  validate := .error { getErrorBuffer := .error (-2147024882), getResult := .error 1 }

/-- Validate world where loading the validator library fails. -/
def worldValidateLoadFail : ValidateWorld where
  dxcNew := .ok ()
  dxilNew := .error (.loadLibraryError "dxil.dll" "not found")
  createValidator := .ok ()
  createLibrary := .ok ()
  createBlobWithEncoding := .ok ()
  validate := .ok []

/-- Claim C1: once the setup calls have succeeded, a failed foreign
operation makes `compile_hlsl` extract the operation result's error blob
and, when that blob decodes to text, return the decoded text as a
`CompileError` (`validate_dxil`: as a `ValidationError`); a successful
operation makes the entry point return exactly the result blob's bytes.
An undecodable error blob instead fails the call with the text-decoding
error, per the spec's error-handling design. -/
theorem c1_error_and_result_blob_extraction (w : CompileWorld) (v : ValidateWorld)
    (hw1 : w.dxcNew = .ok ()) (hw2 : w.createCompiler = .ok ())
    (hw3 : w.createLibrary = .ok ()) (hw4 : w.createBlobWithEncodingFromStr = .ok ())
    (hv1 : v.dxcNew = .ok ()) (hv2 : v.dxilNew = .ok ()) (hv3 : v.createValidator = .ok ())
    (hv4 : v.createLibrary = .ok ()) (hv5 : v.createBlobWithEncoding = .ok ()) :
    (∀ res eb s, w.compile = .error res → res.getErrorBuffer = .ok eb →
      get_blob_as_string eb = some s →
      compile_hlsl w = .error (.compileError s)) ∧
    (∀ res rb, w.compile = .ok res → res.getResult = .ok rb →
      compile_hlsl w = .ok rb) ∧
    (∀ res eb s, v.validate = .error res → res.getErrorBuffer = .ok eb →
      get_blob_as_string eb = some s →
      validate_dxil v = .error (.validationError s)) ∧
    (∀ rb, v.validate = .ok rb → validate_dxil v = .ok rb) := by
  refine ⟨?_, ?_, ?_, ?_⟩
  · intro res eb s hc he hs
    unfold compile_hlsl
    simp only [hw1, hw2, hw3, hw4, hc, he, hs]
  · intro res rb hc hr
    unfold compile_hlsl
    simp only [hw1, hw2, hw3, hw4, hc, hr]
  · intro res eb s hc he hs
    unfold validate_dxil
    simp only [hv1, hv2, hv3, hv4, hv5, hc, he, hs]
  · intro rb hc
    unfold validate_dxil
    simp only [hv1, hv2, hv3, hv4, hv5, hc]

/-- Claim C1, witness on concrete worlds, covering the failure and success
paths of both entry points. -/
theorem c1_error_and_result_blob_extraction_witness :
    compile_hlsl worldCompileErr = .error (.compileError "bad") ∧
    compile_hlsl worldCompileOk = .ok [68, 88, 66, 67] ∧
    validate_dxil worldValidateErr = .error (.validationError "bad") ∧
    validate_dxil worldValidateOk = .ok [68, 88, 66, 67] :=
  ⟨(c1_error_and_result_blob_extraction worldCompileErr worldValidateErr
      rfl rfl rfl rfl rfl rfl rfl rfl rfl).1 _ _ "bad" rfl rfl (by decide),
    (c1_error_and_result_blob_extraction worldCompileOk worldValidateOk
      rfl rfl rfl rfl rfl rfl rfl rfl rfl).2.1 _ _ rfl rfl,
    (c1_error_and_result_blob_extraction worldCompileErr worldValidateErr
      rfl rfl rfl rfl rfl rfl rfl rfl rfl).2.2.1 _ _ "bad" rfl rfl (by decide),
    (c1_error_and_result_blob_extraction worldCompileOk worldValidateOk
      rfl rfl rfl rfl rfl rfl rfl rfl rfl).2.2.2 _ rfl⟩

/-- Claim C6: when the foreign shared library cannot be loaded, both
orchestration entry points return the `LoadLibraryError` carrying the
requested library name and the platform loader's failure detail. -/
theorem c6_load_library_error (w : CompileWorld) (v : ValidateWorld) (f inner : String) :
    (w.dxcNew = .error (.loadLibraryError f inner) →
      compile_hlsl w = .error (.loadLibraryError f inner)) ∧
    (v.dxcNew = .error (.loadLibraryError f inner) →
      validate_dxil v = .error (.loadLibraryError f inner)) ∧
    (v.dxcNew = .ok () → v.dxilNew = .error (.loadLibraryError f inner) →
      validate_dxil v = .error (.loadLibraryError f inner)) := by
  refine ⟨?_, ?_, ?_⟩
  · intro h
    unfold compile_hlsl
    simp only [h]
  · intro h
    unfold validate_dxil
    simp only [h]
  · intro h1 h2
    unfold validate_dxil
    simp only [h1, h2]

/-- Claim C6, witness on concrete load-failure worlds. -/
theorem c6_load_library_error_witness :
    compile_hlsl worldCompileLoadFail =
      .error (.loadLibraryError "dxcompiler.dll" "not found") ∧
    validate_dxil worldValidateLoadFail =
      .error (.loadLibraryError "dxil.dll" "not found") :=
  ⟨(c6_load_library_error worldCompileLoadFail worldValidateLoadFail
      "dxcompiler.dll" "not found").1 rfl,
    (c6_load_library_error worldCompileLoadFail worldValidateLoadFail
      "dxil.dll" "not found").2.2 rfl rfl⟩

/-- Claim C10: in the failure branch, if extracting the error buffer itself
fails with a status, the entry point returns a raw `Win32Error` with that
status; and a typed `CompileError` or `ValidationError` is produced only
when the error blob was successfully extracted. -/
theorem c10_raw_status_on_error_buffer_failure (w : CompileWorld) (v : ValidateWorld)
    (hr : HRESULT)
    (hw1 : w.dxcNew = .ok ()) (hw2 : w.createCompiler = .ok ())
    (hw3 : w.createLibrary = .ok ()) (hw4 : w.createBlobWithEncodingFromStr = .ok ())
    (hv1 : v.dxcNew = .ok ()) (hv2 : v.dxilNew = .ok ()) (hv3 : v.createValidator = .ok ())
    (hv4 : v.createLibrary = .ok ()) (hv5 : v.createBlobWithEncoding = .ok ()) :
    (∀ res, w.compile = .error res → res.getErrorBuffer = .error hr →
      compile_hlsl w = .error (.win32Error hr)) ∧
    (∀ res, v.validate = .error res → res.getErrorBuffer = .error hr →
      validate_dxil v = .error (.win32Error hr)) ∧
    (∀ s, compile_hlsl w = .error (.compileError s) →
      ∃ res eb, w.compile = .error res ∧ res.getErrorBuffer = .ok eb ∧
        get_blob_as_string eb = some s) ∧
    (∀ s, validate_dxil v = .error (.validationError s) →
      ∃ res eb, v.validate = .error res ∧ res.getErrorBuffer = .ok eb ∧
        get_blob_as_string eb = some s) := by
  refine ⟨?_, ?_, ?_, ?_⟩
  · intro res hc he
    unfold compile_hlsl
    simp only [hw1, hw2, hw3, hw4, hc, he]
  · intro res hc he
    unfold validate_dxil
    simp only [hv1, hv2, hv3, hv4, hv5, hc, he]
  · intro s h
    unfold compile_hlsl at h
    simp only [hw1, hw2, hw3, hw4] at h
    rcases hc : w.compile with res | res <;> simp only [hc] at h
    · rcases he : res.getErrorBuffer with hr2 | eb <;> simp only [he] at h
      · simp at h
      · rcases hs : get_blob_as_string eb with _ | s2 <;> simp only [hs] at h
        · simp at h
        · simp only [Except.error.injEq, HassleError.compileError.injEq] at h
          rw [h] at hs
          exact ⟨res, eb, rfl, he, hs⟩
    · rcases hres : res.getResult with hr2 | rb <;> simp only [hres] at h <;> simp at h
  · intro s h
    unfold validate_dxil at h
    simp only [hv1, hv2, hv3, hv4, hv5] at h
    rcases hc : v.validate with res | rb <;> simp only [hc] at h
    · rcases he : res.getErrorBuffer with hr2 | eb <;> simp only [he] at h
      · simp at h
      · rcases hs : get_blob_as_string eb with _ | s2 <;> simp only [hs] at h
        · simp at h
        · simp only [Except.error.injEq, HassleError.validationError.injEq] at h
          rw [h] at hs
          exact ⟨res, eb, rfl, he, hs⟩
    · simp at h

/-- Claim C10, witness on concrete worlds where error-buffer extraction
fails, and on worlds producing the typed diagnostic errors. -/
theorem c10_raw_status_on_error_buffer_failure_witness :
    compile_hlsl worldCompileErrNoBlob = .error (.win32Error (-2147024882)) ∧
    validate_dxil worldValidateErrNoBlob = .error (.win32Error (-2147024882)) ∧
    (∃ res eb, worldCompileErr.compile = .error res ∧ res.getErrorBuffer = .ok eb ∧
      get_blob_as_string eb = some "bad") :=
  ⟨(c10_raw_status_on_error_buffer_failure worldCompileErrNoBlob worldValidateErrNoBlob
      (-2147024882) rfl rfl rfl rfl rfl rfl rfl rfl rfl).1 _ rfl rfl,
    (c10_raw_status_on_error_buffer_failure worldCompileErrNoBlob worldValidateErrNoBlob
      (-2147024882) rfl rfl rfl rfl rfl rfl rfl rfl rfl).2.1 _ rfl rfl,
    (c10_raw_status_on_error_buffer_failure worldCompileErr worldValidateErr
      (-2147024882) rfl rfl rfl rfl rfl rfl rfl rfl rfl).2.2.1 "bad" rfl⟩

end Hassle
